import Mathlib

/-!
Shallow embedding of the core of `chuntaojun/easy-filebeat`, a rotation-aware
log-file tailer. The embedding covers:

* the file-identity layer (`StateOS`, `isSame`, the `"<inode>-<device>"` key,
  `isRemoved`, `isSameFile`) from `sys.go`;
* both line-reader implementations found in the repository: the
  `bufio.Reader.ReadSlice`-based one (`LineReader.nextSlice`, the `filebeat/`
  subpackage copy) and the `bufio.Scanner`-based one (`LineReader.nextScan`,
  the root-package copy), together with `NewLineReader` and `Close`;
* the checkpoint `Metadata` record, its JSON serialization as performed by
  `harvester.reportAndSyncMetadata` (`json.Marshal` of the untagged struct)
  and its deserialization as performed by `harvester.Init`
  (`json.Unmarshal(data, beater.meta)`, a non-pointer target);
* the harvester operations `ignoreAlreadDeal`, `switchNextFile`,
  `initReaderFromWait`, `initReaderFromMetadata`, `Close` and the
  type assertion `curReader.Load().(Reader)` performed by `innerRun`.

File bytes are modelled as `List Char` (all content relevant to the claims is
ASCII, so one `Char` stands for one byte); byte counts are `Char` counts.
The Go pointer `readOffset *int64` shared between the reader and the
checkpoint is collapsed into an explicit `readOffset` field carried in the
reader state. Filesystem answers observed by `Next` at end of file (the
re-open of the origin path, the `stat` of the held handle, sameness of the
two handles) are supplied as an explicit environment `FsEnv`.
-/

namespace Filebeat

/-- `StateOS` from `sys.go`: the `(inode, device)` identity of a file. -/
structure StateOS where
  Inode : Nat
  Device : Nat
  deriving DecidableEq, Repr

/-- `StateOS.IsSame`: identical inode and device. -/
def StateOS.isSame (fs state : StateOS) : Bool :=
  fs.Inode == state.Inode && fs.Device == state.Device

/-- `StateOS.String()`: the stable key `"<inode>-<device>"`. -/
def StateOS.str (fs : StateOS) : String :=
  toString fs.Inode ++ "-" ++ toString fs.Device

/-- Operating-system level errors surfaced by file operations
(`os.ErrNotExist`, the error of closing an already-closed `os.File`, and a
catch-all for any other OS error). -/
inductive GoErr where
  | notExist
  | alreadyClosed
  | other (code : Nat)
  deriving DecidableEq, Repr

/-- The reader's error vocabulary: the four exported errors of the package
(`ErrorRename`, `ErrorRemoved`, `ErrorEmpty`, `ErrorClosed`), `io.EOF`, and
passthrough of an underlying OS error. -/
inductive NextErr where
  | errRename
  | errRemoved
  | errEmpty
  | errClosed
  | eof
  | goErr (e : GoErr)
  deriving DecidableEq, Repr

/-- `os.O_RDONLY`. -/
def O_RDONLY : Nat := 0

/-- An open `os.File` handle as far as the reader observes it: the path it
was opened with, the open flag and permission passed to `os.OpenFile`, and
whether the handle is still open (a second `Close` on an `os.File` returns
an already-closed error). -/
structure OpenedFile where
  path : String
  flag : Nat
  perm : Nat
  isOpen : Bool
  deriving DecidableEq, Repr

/-- `ReadOpen` / `readOpen` from `sys.go`: `os.OpenFile(path, os.O_RDONLY, 0)`. -/
def ReadOpen (path : String) : OpenedFile :=
  { path := path, flag := O_RDONLY, perm := 0, isOpen := true }

/-- The `stat` of the held handle as observed at end of file: link count and
identity; `none` when the `stat` call itself fails. -/
structure HeldStat where
  nlink : Nat
  ident : StateOS
  deriving DecidableEq, Repr

/-- The filesystem answers `Next` observes when the underlying read reports
end of file: the result of re-opening the origin path (`ReadOpen`), the
`stat` of the currently-held handle, and — for the Scanner implementation —
the non-EOF read error reported by `Scanner.Err` (`none` means plain EOF). -/
structure FsEnv where
  reopen : Except GoErr StateOS
  heldStat : Option HeldStat
  scanReadErr : Option GoErr

/-- `IsRemoved` / `isRemoved` from `sys.go` applied to the held handle: true
when the `stat` call fails or the link count is zero. -/
def isRemovedHeld (env : FsEnv) : Bool :=
  match env.heldStat with
  | none => true
  | some st => st.nlink == 0

/-- `IsSameFile` / `isSameFile` from `sys.go` applied to the held handle and
the re-opened handle with identity `rid`: both identities equal. -/
def sameFileHeld (env : FsEnv) (rid : StateOS) : Bool :=
  match env.heldStat with
  | none => false
  | some st => st.ident.isSame rid

/-- The `LineReader` state: the atomically-set closed flag, the origin path,
the held `os.File`, the handle's read position (where the next byte comes
from), and the shared offset cell `*readOffset`. -/
structure LineReader where
  closed : Bool
  originName : String
  curFile : OpenedFile
  pos : Int
  readOffset : Int
  deriving DecidableEq, Repr

/-- The seek target computed by `NewLineReader`: `offset` when `offset == 0`,
`offset + 1` otherwise. -/
def seekTarget (offset : Int) : Int :=
  if offset = 0 then offset else offset + 1

/-- `NewLineReader(name, offset)` on the successful path: open the path with
`ReadOpen` (read-only), seek to `seekTarget offset` from the start, and start
with the shared offset cell holding `offset`. Both repository copies
construct the reader identically. -/
def NewLineReader (name : String) (offset : Int) : LineReader :=
  { closed := false
    originName := name
    curFile := ReadOpen name
    pos := seekTarget offset
    readOffset := offset }

/-- `LineReader.Close` (identical in both copies): set the closed flag, drop
the buffered reader, and return the result of closing the held `os.File` —
`ok` the first time, the already-closed error afterwards. -/
def LineReader.close (r : LineReader) : Except GoErr Unit × LineReader :=
  let res : Except GoErr Unit :=
    if r.curFile.isOpen then .ok () else .error .alreadyClosed
  (res, { r with closed := true, curFile := { r.curFile with isOpen := false } })

/-- `bufio.Reader.ReadSlice('\n')` on the remaining bytes: the chunk up to
and including the first `'\n'`, or `none` when no delimiter remains before
end of file. (Lines are assumed to fit the buffer.) -/
def takeToDelim : List Char → Option (List Char)
  | [] => none
  | c :: cs =>
    if c = '\n' then some [c]
    else
      match takeToDelim cs with
      | none => none
      | some rest => some (c :: rest)

/-- `strings.Split(msg, "\n")[0]`: the bytes of `msg` before its first
`'\n'`. -/
def stripDelim (msg : List Char) : List Char :=
  msg.takeWhile (fun c => c ≠ '\n')

/-- The EOF classification shared by both `Next` implementations, in source
order: re-open the origin path — a not-exist failure is `ErrorRemoved` and
any other failure is surfaced unchanged; then a removed held handle is
`ErrorRemoved`; then a re-opened handle that is not the same file is
`ErrorRename`; otherwise the original `io.EOF` is returned. -/
def classifyEOF (env : FsEnv) : NextErr :=
  match env.reopen with
  | .error e => if e = .notExist then .errRemoved else .goErr e
  | .ok rid =>
    if isRemovedHeld env then .errRemoved
    else if !(sameFileHeld env rid) then .errRename
    else .eof

/-- `LineReader.Next` of the `filebeat/` subpackage copy (built on
`bufio.Reader.ReadSlice`): closed flag first; on a successful read of `msg`
(delimiter included) advance the shared offset by `len(msg)` and return
`strings.Split(msg, "\n")[0]`; at end of file run the classification. -/
def LineReader.nextSlice (r : LineReader) (content : List Char) (env : FsEnv) :
    Except NextErr (List Char) × LineReader :=
  if r.closed then (.error .errClosed, r)
  else
    match takeToDelim (content.drop r.pos.toNat) with
    | some msg =>
      (.ok (stripDelim msg),
       { r with
         pos := r.pos + (msg.length : Int),
         readOffset := r.readOffset + (msg.length : Int) })
    | none => (.error (classifyEOF env), { r with pos := (content.length : Int) })

/-- `dropCR` from `bufio.ScanLines`: drop a trailing `'\r'`. -/
def dropCR (data : List Char) : List Char :=
  if data.getLast? = some '\r' then data.dropLast else data

/-- `bufio.ScanLines` on the remaining bytes `data` (the scanner is at end
of input, so `atEOF` holds): no token when `data` is empty; otherwise the
bytes before the first `'\n'` (with `dropCR`, advancing past the delimiter),
or all remaining bytes as a final token when no delimiter remains. Returns
the token and the number of bytes consumed. -/
def scanLinesToken (data : List Char) : Option (List Char × Nat) :=
  match takeToDelim data with
  | some chunk => some (dropCR chunk.dropLast, chunk.length)
  | none => if data.isEmpty then none else some (dropCR data, data.length)

/-- `LineReader.Next` of the root-package copy (built on `bufio.Scanner`
with `bufio.ScanLines`): closed flag first; when `Scan()` yields a token,
advance the shared offset by `len(Text())` — the token with the delimiter
already stripped — and return it; when `Scan()` is exhausted, a non-EOF
`Scanner.Err` is surfaced unchanged, and plain end of file runs the same
classification as the other copy. -/
def LineReader.nextScan (r : LineReader) (content : List Char) (env : FsEnv) :
    Except NextErr (List Char) × LineReader :=
  if r.closed then (.error .errClosed, r)
  else
    match scanLinesToken (content.drop r.pos.toNat) with
    | some (tok, adv) =>
      (.ok tok,
       { r with
         pos := r.pos + (adv : Int),
         readOffset := r.readOffset + (tok.length : Int) })
    | none =>
      match env.scanReadErr with
      | some e => (.error (.goErr e), r)
      | none => (.error (classifyEOF env), r)

/-- Repeatedly call `nextSlice` (the harvester's drain pattern): collect the
records of the successful calls and stop at the first error, returning the
records, the final reader state, and the terminating error (if the fuel
sufficed to reach one). -/
def drainSlice (content : List Char) (env : FsEnv) :
    Nat → LineReader → List (List Char) × LineReader × Option NextErr
  | 0, r => ([], r, none)
  | Nat.succ fuel, r =>
    match r.nextSlice content env with
    | (.ok msg, r') =>
      let rest := drainSlice content env fuel r'
      (msg :: rest.1, rest.2)
    | (.error e, r') => ([], r', some e)

/-- `Metadata` from `metadata.go`: the persisted checkpoint. -/
structure Metadata where
  CurFile : String
  CurFileINode : String
  CurOffset : Int
  PreFileINode : String
  deriving DecidableEq, Repr

/-- The zero value `Metadata{}`. -/
def Metadata.empty : Metadata :=
  { CurFile := "", CurFileINode := "", CurOffset := 0, PreFileINode := "" }

/-- A JSON document, as far as the checkpoint needs: strings, integers and
objects. -/
inductive JVal where
  | jstr (s : String)
  | jint (n : Int)
  | jobj (fields : List (String × JVal))
  deriving Repr

/-- `json.Marshal(beater.meta)` as performed by `reportAndSyncMetadata`: the
struct has no json tags, so the keys are the Go field names, in declaration
order. -/
def marshalMetadata (m : Metadata) : JVal :=
  .jobj [("CurFile", .jstr m.CurFile),
         ("CurFileINode", .jstr m.CurFileINode),
         ("CurOffset", .jint m.CurOffset),
         ("PreFileINode", .jstr m.PreFileINode)]

/-- One step of `encoding/json` object decoding into a `Metadata` value: a
known key of matching type sets the field, a known key of mismatched type is
a type error, an unknown key is ignored. -/
def applyMetadataField (m : Metadata) : String × JVal → Except String Metadata
  | ("CurFile", .jstr s) => .ok { m with CurFile := s }
  | ("CurFile", _) => .error "json: cannot unmarshal into field CurFile"
  | ("CurFileINode", .jstr s) => .ok { m with CurFileINode := s }
  | ("CurFileINode", _) => .error "json: cannot unmarshal into field CurFileINode"
  | ("CurOffset", .jint n) => .ok { m with CurOffset := n }
  | ("CurOffset", _) => .error "json: cannot unmarshal into field CurOffset"
  | ("PreFileINode", .jstr s) => .ok { m with PreFileINode := s }
  | ("PreFileINode", _) => .error "json: cannot unmarshal into field PreFileINode"
  | (_, _) => .ok m

/-- `json.Unmarshal(data, &m)` — decoding into a *pointer* to `Metadata`,
which is what `encoding/json` requires: fold the object's fields over the
existing value. -/
def unmarshalMetadataPtr (j : JVal) (m : Metadata) : Except String Metadata :=
  match j with
  | .jobj fields => fields.foldlM applyMetadataField m
  | _ => .error "json: cannot unmarshal into Metadata"

/-- `json.Unmarshal(data, beater.meta)` exactly as `harvester.Init` calls it:
the target is passed **by value**, not as a pointer, and `encoding/json`
rejects every non-pointer target with `InvalidUnmarshalError` before looking
at the data. -/
def jsonUnmarshalNonPtr (_j : JVal) (_m : Metadata) : Except String Metadata :=
  .error "json: Unmarshal(non-pointer filebeat.Metadata)"

/-- What was found at `MetaPath` when `Init` reads it: the file does not
exist, it holds bytes that are not valid JSON, or it holds a valid JSON
document. -/
inductive MetaFileData where
  | notExist
  | invalid
  | valid (j : JVal)

/-- The metadata-restoring portion of `harvester.Init`: a missing file is
created and the in-memory checkpoint kept; invalid JSON returns early with
the checkpoint kept; a valid document is passed to
`json.Unmarshal(data, beater.meta)` — the non-pointer call — whose error
aborts `Init`. -/
def initRestoreMetadata (data : MetaFileData) (m : Metadata) :
    Except String Metadata :=
  match data with
  | .notExist => .ok m
  | .invalid => .ok m
  | .valid j =>
    match jsonUnmarshalNonPtr j m with
    | .error e => .error e
    | .ok m' => .ok m'

/-- A directory entry as the harvester sees it (`os.FileInfo`): its base
name, its modification time, and its `GetOSState` identity. -/
structure FileInfo where
  name : String
  modTime : Int
  ident : StateOS
  deriving DecidableEq, Repr

/-- `GetOSState(info).String()`: the identity key of a directory entry. -/
def GetOSStateStr (fi : FileInfo) : String :=
  fi.ident.str

/-- The comparator of `ignoreAlreadDeal`'s `sort.Slice` call, as an order:
entry `a` comes no later than entry `b` when `a`'s modification time is no
earlier (`source[i].ModTime().After(source[j].ModTime())` sorts newest
first). -/
def modDesc (a b : FileInfo) : Prop :=
  b.modTime ≤ a.modTime

instance : DecidableRel modDesc :=
  fun a b => inferInstanceAs (Decidable (b.modTime ≤ a.modTime))

instance : IsTotal FileInfo modDesc :=
  ⟨fun a b => le_total b.modTime a.modTime⟩

instance : IsTrans FileInfo modDesc :=
  ⟨fun _ _ _ h1 h2 => le_trans h2 h1⟩

/-- The `sort.Slice` call of `ignoreAlreadDeal`: sort the entries so that
modification times are non-increasing (newest first). -/
def sortByModDesc (l : List FileInfo) : List FileInfo :=
  List.insertionSort modDesc l

/-- The scan loop of `ignoreAlreadDeal`: the index of the first entry whose
identity key equals `key`, or the length of the list when none matches (the
Go loop leaves `pos = len(source)` in that case). -/
def findCurPos (key : String) : List FileInfo → Nat
  | [] => 0
  | x :: xs => if GetOSStateStr x = key then 0 else findCurPos key xs + 1

/-- `harvester.ignoreAlreadDeal`: sort the candidate entries newest-first,
find the first entry whose identity equals the checkpoint's `CurFileINode`,
and keep the entries strictly before it (`source[:pos]`). -/
def ignoreAlreadDeal (m : Metadata) (source : List FileInfo) : List FileInfo :=
  let sorted := sortByModDesc source
  sorted.take (findCurPos m.CurFileINode sorted)

/-- The harvester state the switching logic touches: the in-memory
checkpoint, the pending file list, and the current-reader atomic cell
(`none` models a `Load()` that returns a nil interface because nothing was
ever stored). -/
structure HarvState where
  meta : Metadata
  waitDealFiles : List FileInfo
  curReader : Option LineReader
  deriving DecidableEq, Repr

/-- The removal step of `switchNextFile`: delete the first pending entry
whose identity key equals `key` (the Go loop finds the first match and
splices it out; no match leaves the list unchanged). -/
def removeByINode (key : String) : List FileInfo → List FileInfo
  | [] => []
  | x :: xs => if GetOSStateStr x = key then xs else x :: removeByINode key xs

/-- `harvester.initReaderFromWait`: block (here: `none`) when the pending
list is empty; otherwise take its **last** entry, set the checkpoint's
`CurFile`, `CurOffset := 0` and `CurFileINode` to that entry, and construct
a new `LineReader` for it. `openRes` supplies the result of the
`NewLineReader` open: on failure (`some e`) the checkpoint keeps the new
values but the reader cell is untouched and the error is returned. -/
def initReaderFromWait (openRes : Option GoErr) (st : HarvState) :
    Option (HarvState × Option GoErr) :=
  match st.waitDealFiles.getLast? with
  | none => none
  | some waitDeal =>
    let meta' := { st.meta with
                   CurFile := waitDeal.name
                   CurOffset := 0
                   CurFileINode := GetOSStateStr waitDeal }
    match openRes with
    | none =>
      let st' := { st with
                   meta := meta',
                   curReader := some (NewLineReader waitDeal.name 0) }
      some (st', none)
    | some e => some ({ st with meta := meta' }, some e)

/-- `harvester.switchNextFile`: close the current reader if one is stored,
remove from the pending list the entry whose identity matches the
checkpoint's `CurFileINode`, then run `initReaderFromWait`. -/
def switchNextFile (openRes : Option GoErr) (st : HarvState) :
    Option (HarvState × Option GoErr) :=
  let st1 := { st with
               curReader := st.curReader.map (fun r => r.close.2),
               waitDealFiles := removeByINode st.meta.CurFileINode st.waitDealFiles }
  initReaderFromWait openRes st1

/-- `harvester.initReaderFromMetadata`: only when the checkpoint names a
current file is a reader constructed and stored; an empty `CurFile` stores
nothing. `openRes` supplies the result of the open. -/
def initReaderFromMetadata (openRes : Option GoErr) (st : HarvState) :
    Except GoErr HarvState :=
  if st.meta.CurFile ≠ "" then
    match openRes with
    | none =>
      .ok { st with
            curReader := some (NewLineReader st.meta.CurFile st.meta.CurOffset) }
    | some e => .error e
  else .ok st

/-- A Go runtime panic, as far as the harvester can raise one: the failed
type assertion `curReader.Load().(Reader)` on a nil interface value. -/
inductive GoPanic where
  | nilInterfaceAssertion
  deriving DecidableEq, Repr

/-- The unchecked type assertion `beater.curReader.Load().(Reader)` used by
both `harvester.Close` and `harvester.innerRun`: a nil cell panics instead
of returning. -/
def typeAssertReader (cell : Option LineReader) : Except GoPanic LineReader :=
  match cell with
  | none => .error .nilInterfaceAssertion
  | some r => .ok r

/-- `harvester.Close`: assert the current-reader cell and close the reader;
with a nil cell the assertion panics and `Close` does not return. -/
def harvesterClose (st : HarvState) :
    Except GoPanic (Except GoErr Unit × HarvState) :=
  match typeAssertReader st.curReader with
  | .error p => .error p
  | .ok r =>
    let (res, r') := r.close
    .ok (res, { st with curReader := some r' })

/-- The load-and-assert that begins every iteration of
`harvester.innerRun`'s drain loop. -/
def innerRunLoadReader (st : HarvState) : Except GoPanic LineReader :=
  typeAssertReader st.curReader

/-- What `harvester.innerRun` does with one `Next` outcome: deliver a record
to the sinks, switch files on `ErrorRemoved`/`ErrorRename`, back off on
plain EOF, and surface anything else to `OnError`. -/
inductive HarvestAction where
  | deliver (msg : List Char)
  | switchFile
  | backoff
  | surface (e : NextErr)
  deriving DecidableEq, Repr

/-- The `switch` statement of `harvester.innerRun` over one `Next` result. -/
def innerRunAction : Except NextErr (List Char) → HarvestAction
  | .ok msg => .deliver msg
  | .error .errRemoved => .switchFile
  | .error .errRename => .switchFile
  | .error .eof => .backoff
  | .error e => .surface e

/-- Whether an error is the exported `ErrorEmpty`. -/
def isErrorEmpty : NextErr → Bool
  | .errEmpty => true
  | _ => false

/-- Whether a `Next` result is the exported `ErrorEmpty`. -/
def returnsErrorEmpty : Except NextErr (List Char) → Bool
  | .error .errEmpty => true
  | _ => false

/-- Whether a harvester action surfaces the exported `ErrorEmpty`. -/
def surfacesErrorEmpty : HarvestAction → Bool
  | .surface .errEmpty => true
  | _ => false

/-- Whether an `Except GoErr Unit` is `ok` (the observable success of a
`Close` call). -/
def closeOk : Except GoErr Unit → Bool
  | .ok _ => true
  | .error _ => false

/-- A benign filesystem environment at end of file: the origin path
re-opens to the very file the reader holds, whose link count is one. -/
def benignEnv : FsEnv :=
  { reopen := .ok { Inode := 1, Device := 1 }
    heldStat := some { nlink := 1, ident := { Inode := 1, Device := 1 } }
    scanReadErr := none }

/-- An environment where re-opening the origin path fails with
not-exist. -/
def removedEnv : FsEnv :=
  { reopen := .error .notExist
    heldStat := some { nlink := 1, ident := { Inode := 1, Device := 1 } }
    scanReadErr := none }

/-- The ten-line file of scenario S1 / `Test_ReaderLine`:
`test_line_log=1` … `test_line_log=10`, each line terminated by `'\n'`
(161 bytes in total). -/
def tenLinesLog : String :=
  "test_line_log=1\ntest_line_log=2\ntest_line_log=3\ntest_line_log=4\ntest_line_log=5\ntest_line_log=6\ntest_line_log=7\ntest_line_log=8\ntest_line_log=9\ntest_line_log=10\n"

/-- The ten records the sink is expected to receive, delimiters stripped. -/
def tenLinesRecords : List (List Char) :=
  ["test_line_log=1".toList, "test_line_log=2".toList, "test_line_log=3".toList,
   "test_line_log=4".toList, "test_line_log=5".toList, "test_line_log=6".toList,
   "test_line_log=7".toList, "test_line_log=8".toList, "test_line_log=9".toList,
   "test_line_log=10".toList]

/-- The result of draining the ten-line file with the `ReadSlice` reader
from offset 0. -/
def tenLinesRun : List (List Char) × LineReader × Option NextErr :=
  drainSlice tenLinesLog.toList benignEnv 20 (NewLineReader "a.log" 0)

/-- A concrete checkpoint used to exhibit the metadata round-trip. -/
def sampleMeta : Metadata :=
  { CurFile := "a.log", CurFileINode := "1-2", CurOffset := 3, PreFileINode := "4-2" }

/-- A concrete harvester state about to switch files: the checkpoint points
at the fully-consumed file with identity `"5-7"`, and one newer pending file
`b.log` with identity `"9-7"` is waiting. -/
def sampleSwitchState : HarvState :=
  { meta := { CurFile := "a.log", CurFileINode := "5-7", CurOffset := 10,
              PreFileINode := "" }
    waitDealFiles := [{ name := "b.log", modTime := 2,
                        ident := { Inode := 9, Device := 7 } }]
    curReader := none }

/-- The state `switchNextFile` produces from `sampleSwitchState` when the
open succeeds. -/
def sampleSwitchResult : HarvState :=
  { meta := { CurFile := "b.log", CurFileINode := "9-7", CurOffset := 0,
              PreFileINode := "" }
    waitDealFiles := [{ name := "b.log", modTime := 2,
                        ident := { Inode := 9, Device := 7 } }]
    curReader := some (NewLineReader "b.log" 0) }

/-- A harvester state in which no reader was ever adopted: empty checkpoint,
nothing stored in the current-reader cell. -/
def emptyBootState : HarvState :=
  { meta := Metadata.empty, waitDealFiles := [], curReader := none }

end Filebeat

namespace Filebeat

/-! ## Helper lemmas -/

/-- A chunk returned by `ReadSlice` is one byte longer than the record it
carries: the chunk ends with the delimiter and `stripDelim` removes exactly
that byte. -/
theorem takeToDelim_length :
    ∀ {l chunk : List Char}, takeToDelim l = some chunk →
      chunk.length = (stripDelim chunk).length + 1 := by
  intro l
  induction l with
  | nil => intro chunk h; simp [takeToDelim] at h
  | cons c cs ih =>
    intro chunk h
    by_cases hc : c = '\n'
    · rw [takeToDelim, if_pos hc] at h
      cases h
      simp [stripDelim, hc]
    · rw [takeToDelim, if_neg hc] at h
      cases htd : takeToDelim cs with
      | none => rw [htd] at h; cases h
      | some rest =>
        rw [htd] at h
        cases h
        have := ih htd
        simp [stripDelim, hc] at this ⊢
        omega

/-- The EOF classification never produces `ErrorEmpty`. -/
theorem classifyEOF_not_empty (env : FsEnv) :
    isErrorEmpty (classifyEOF env) = false := by
  unfold classifyEOF
  cases env.reopen with
  | error e => by_cases h : e = GoErr.notExist <;> simp [h, isErrorEmpty]
  | ok rid =>
    by_cases h1 : isRemovedHeld env
    · simp [h1, isErrorEmpty]
    · by_cases h2 : sameFileHeld env rid <;> simp [h1, h2, isErrorEmpty]

/-- A `Next` outcome that is not `ErrorEmpty` is never surfaced as
`ErrorEmpty` by the harvester's drain loop. -/
theorem innerRunAction_no_empty {res : Except NextErr (List Char)}
    (h : returnsErrorEmpty res = false) :
    surfacesErrorEmpty (innerRunAction res) = false := by
  cases res with
  | ok msg => rfl
  | error e =>
    cases e <;> first
      | rfl
      | simp [returnsErrorEmpty, isErrorEmpty] at h

/-- The `ReadSlice` implementation never yields `ErrorEmpty`. -/
theorem nextSlice_never_empty (content : List Char) (env : FsEnv)
    (r : LineReader) :
    returnsErrorEmpty (r.nextSlice content env).1 = false := by
  unfold LineReader.nextSlice
  by_cases h : r.closed
  · simp [h, returnsErrorEmpty, isErrorEmpty]
  · cases htd : takeToDelim (content.drop r.pos.toNat) with
    | none =>
      have := classifyEOF_not_empty env
      simp [h, htd, returnsErrorEmpty]
      cases hcl : classifyEOF env <;> simp_all [isErrorEmpty]
    | some msg => simp [h, htd, returnsErrorEmpty]

/-- The `Scanner` implementation never yields `ErrorEmpty`. -/
theorem nextScan_never_empty (content : List Char) (env : FsEnv)
    (r : LineReader) :
    returnsErrorEmpty (r.nextScan content env).1 = false := by
  unfold LineReader.nextScan
  by_cases h : r.closed
  · simp [h, returnsErrorEmpty, isErrorEmpty]
  · cases hst : scanLinesToken (content.drop r.pos.toNat) with
    | none =>
      cases hse : env.scanReadErr with
      | none =>
        have := classifyEOF_not_empty env
        simp [h, hst, hse, returnsErrorEmpty]
        cases hcl : classifyEOF env <;> simp_all [isErrorEmpty]
      | some e => simp [h, hst, hse, returnsErrorEmpty, isErrorEmpty]
    | some tok => simp [h, hst, returnsErrorEmpty]

/-- The Go loop of `ignoreAlreadDeal` — take the entries strictly before the
first identity match — is `takeWhile` of the no-match predicate. -/
theorem take_findCurPos (key : String) (l : List FileInfo) :
    l.take (findCurPos key l) = l.takeWhile (fun e => GetOSStateStr e != key) := by
  induction l with
  | nil => rfl
  | cons x xs ih =>
    by_cases h : GetOSStateStr x = key
    · simp [findCurPos, h]
    · simp [findCurPos, h, ih]

end Filebeat

namespace Filebeat

/-! ## Claim theorems -/

/-- C1: after a successful `Next()` the shared offset is supposed to have
advanced by the byte length of the returned record plus one for the
delimiter. The `ReadSlice` implementation does exactly that, for every
content, environment and reader state. The `Scanner` implementation
advances the offset only by the length of the already-stripped record: on
the two-byte file `"a\n"` read from offset 0, both copies return the record
`"a"`, the `ReadSlice` copy leaves the offset at 2 (the bytes consumed,
delimiter included) while the `Scanner` copy leaves it at 1. -/
theorem c1_scanner_offset_divergence :
    (∀ (content : List Char) (env : FsEnv) (r : LineReader)
       (msg : List Char) (r' : LineReader),
       r.nextSlice content env = (.ok msg, r') →
       r'.readOffset = r.readOffset + (msg.length : Int) + 1) ∧
    ((NewLineReader "a.log" 0).nextSlice "a\n".toList benignEnv).1
      = .ok "a".toList ∧
    ((NewLineReader "a.log" 0).nextSlice "a\n".toList benignEnv).2.readOffset
      = 2 ∧
    ((NewLineReader "a.log" 0).nextScan "a\n".toList benignEnv).1
      = .ok "a".toList ∧
    ((NewLineReader "a.log" 0).nextScan "a\n".toList benignEnv).2.readOffset
      = 1 ∧
    ("a\n".toList.length : Int) = 2 := by
  refine ⟨?_, rfl, rfl, rfl, rfl, rfl⟩
  intro content env r msg r' h
  unfold LineReader.nextSlice at h
  by_cases hcl : r.closed
  · simp [hcl] at h
  · cases htd : takeToDelim (content.drop r.pos.toNat) with
    | none => simp [hcl, htd] at h
    | some chunk =>
      simp [hcl, htd] at h
      obtain ⟨hmsg, hr'⟩ := h
      have hlen := takeToDelim_length htd
      rw [hmsg] at hlen
      subst hr'
      simp only
      omega

/-- C2: serializing a checkpoint as `reportAndSyncMetadata` does
(`json.Marshal` of the untagged struct) and then deserializing it as `Init`
does is supposed to be a lossless round-trip. `Init` passes `beater.meta`
to `json.Unmarshal` **by value**, and `encoding/json` rejects every
non-pointer target, so for every checkpoint the `Init`-style deserialization
returns `InvalidUnmarshalError` instead of the checkpoint; decoding the same
document into a pointer (`&beater.meta`, what the code presumably meant)
recovers the checkpoint exactly, for every starting value. -/
theorem c2_init_unmarshal_nonpointer :
    (∀ m m0 : Metadata,
      initRestoreMetadata (.valid (marshalMetadata m)) m0 =
        .error "json: Unmarshal(non-pointer filebeat.Metadata)") ∧
    (∀ m m0 : Metadata, unmarshalMetadataPtr (marshalMetadata m) m0 = .ok m) ∧
    initRestoreMetadata (.valid (marshalMetadata sampleMeta)) Metadata.empty =
      .error "json: Unmarshal(non-pointer filebeat.Metadata)" :=
  ⟨fun _ _ => rfl, fun _ _ => rfl, rfl⟩

/-- C7: `NewLineReader` opens the path read-only (`os.OpenFile` with
`O_RDONLY` and permission 0) and seeks to `offset` when `offset == 0`, to
`offset + 1` otherwise. -/
theorem c7_new_line_reader_construction (name : String) (offset : Int) :
    (NewLineReader name offset).curFile = ReadOpen name ∧
    (NewLineReader name offset).curFile.flag = O_RDONLY ∧
    (NewLineReader name offset).curFile.perm = 0 ∧
    (NewLineReader name offset).pos
      = (if offset = 0 then offset else offset + 1) :=
  ⟨rfl, rfl, rfl, rfl⟩

/-- C8 (amended): `Close` always leaves the reader in the closed state, a
second `Close` leaves the state exactly where the first left it, and every
`Next` — in either implementation — after any `Close` returns `ErrorClosed`;
however the second `Close` returns the underlying handle's already-closed
error rather than repeating the first call's result. -/
theorem c8_close_semantics (r : LineReader) (content : List Char)
    (env : FsEnv) :
    (r.close.2.close).2 = r.close.2 ∧
    r.close.2.closed = true ∧
    (r.close.2.nextSlice content env).1 = .error .errClosed ∧
    (r.close.2.nextScan content env).1 = .error .errClosed ∧
    (r.close.2.close).1 = .error .alreadyClosed :=
  ⟨rfl, rfl, rfl, rfl, rfl⟩

/-- C8 (counterexample): on a freshly constructed reader the first `Close`
returns `ok` but the second returns the already-closed error of the
underlying `os.File` — the two calls do not have the same observable
result. -/
theorem c8_double_close_counterexample :
    closeOk ((NewLineReader "a.log" 0).close).1 = true ∧
    closeOk (((NewLineReader "a.log" 0).close).2.close).1 = false ∧
    ((NewLineReader "a.log" 0).close).1 = .ok () ∧
    (((NewLineReader "a.log" 0).close).2.close).1 = .error .alreadyClosed :=
  ⟨rfl, rfl, rfl, rfl⟩

/-- C9: no operation ever produces the declared error `ErrorEmpty`: neither
`Next` implementation returns it for any content, environment or reader
state, the harvester's drain loop never surfaces it, and an empty line
yields the empty record with no error in both implementations. -/
theorem c9_error_empty_never_returned (content : List Char) (env : FsEnv)
    (r : LineReader) :
    returnsErrorEmpty (r.nextSlice content env).1 = false ∧
    returnsErrorEmpty (r.nextScan content env).1 = false ∧
    surfacesErrorEmpty (innerRunAction (r.nextSlice content env).1) = false ∧
    surfacesErrorEmpty (innerRunAction (r.nextScan content env).1) = false ∧
    ((NewLineReader "a.log" 0).nextSlice "\n".toList benignEnv).1 = .ok [] ∧
    ((NewLineReader "a.log" 0).nextScan "\n".toList benignEnv).1 = .ok [] :=
  ⟨nextSlice_never_empty content env r,
   nextScan_never_empty content env r,
   innerRunAction_no_empty (nextSlice_never_empty content env r),
   innerRunAction_no_empty (nextScan_never_empty content env r),
   rfl, rfl⟩

end Filebeat

namespace Filebeat

/-- C3: when the underlying read hits end of file, both `Next`
implementations return exactly the shared classification, and that
classification follows the claimed order: a not-exist failure of the
re-open is `ErrorRemoved`; with a successful re-open, a held handle whose
link count is zero (or whose stat fails) is `ErrorRemoved`; then a
re-opened handle that is not the same file is `ErrorRename`; otherwise the
result is plain EOF. -/
theorem c3_eof_classification (content : List Char) (env : FsEnv)
    (r : LineReader) :
    (r.closed = false → takeToDelim (content.drop r.pos.toNat) = none →
      (r.nextSlice content env).1 = .error (classifyEOF env)) ∧
    (r.closed = false → content.drop r.pos.toNat = [] →
      env.scanReadErr = none →
      (r.nextScan content env).1 = .error (classifyEOF env)) ∧
    (env.reopen = .error .notExist → classifyEOF env = .errRemoved) ∧
    (∀ rid, env.reopen = .ok rid → isRemovedHeld env = true →
      classifyEOF env = .errRemoved) ∧
    (∀ rid, env.reopen = .ok rid → isRemovedHeld env = false →
      sameFileHeld env rid = false → classifyEOF env = .errRename) ∧
    (∀ rid, env.reopen = .ok rid → isRemovedHeld env = false →
      sameFileHeld env rid = true → classifyEOF env = .eof) := by
  refine ⟨?_, ?_, ?_, ?_, ?_, ?_⟩
  · intro h1 h2
    simp [LineReader.nextSlice, h1, h2]
  · intro h1 h2 h3
    simp [LineReader.nextScan, h1, h2, h3, scanLinesToken, takeToDelim]
  · intro h
    simp [classifyEOF, h]
  · intro rid h hrem
    simp [classifyEOF, h, hrem]
  · intro rid h hrem hsame
    simp [classifyEOF, h, hrem, hsame]
  · intro rid h hrem hsame
    simp [classifyEOF, h, hrem, hsame]

/-- C4 (amended): `switchNextFile` never writes `PreFileINode` — whenever
it completes, the checkpoint's `PreFileINode` equals the value it had on
entry; the identity of the file that was just retired is not recorded
anywhere. -/
theorem c4_prev_inode_unchanged (openRes : Option GoErr) (st : HarvState)
    (st' : HarvState) (e : Option GoErr)
    (h : switchNextFile openRes st = some (st', e)) :
    st'.meta.PreFileINode = st.meta.PreFileINode := by
  unfold switchNextFile initReaderFromWait at h
  cases hl : (removeByINode st.meta.CurFileINode st.waitDealFiles).getLast? with
  | none => simp [hl] at h
  | some w =>
    simp [hl] at h
    cases openRes with
    | none =>
      simp at h
      obtain ⟨hst, _⟩ := h
      rw [← hst]
    | some e' =>
      simp at h
      obtain ⟨hst, _⟩ := h
      rw [← hst]

/-- C4 (witness): the amended fact at the concrete switching state. -/
theorem c4_prev_inode_unchanged_witness :
    sampleSwitchResult.meta.PreFileINode
      = sampleSwitchState.meta.PreFileINode :=
  c4_prev_inode_unchanged none sampleSwitchState sampleSwitchResult none
    (by decide)

/-- C4 (counterexample): at the concrete switching state — checkpoint on
the fully-consumed file with identity `"5-7"`, one pending file —
`switchNextFile` completes with `PreFileINode` still empty, not equal to
the retired identity `"5-7"`. -/
theorem c4_prev_inode_counterexample :
    switchNextFile none sampleSwitchState = some (sampleSwitchResult, none) ∧
    sampleSwitchState.meta.CurFileINode = "5-7" ∧
    sampleSwitchResult.meta.PreFileINode = "" ∧
    (("" : String) == "5-7") = false :=
  ⟨by decide, rfl, rfl, by decide⟩

/-- C5: `ignoreAlreadDeal` sorts the candidate entries by modification time
descending (the sorted list is ordered under `modDesc` and is a permutation
of the input) and returns exactly the strict prefix of the sorted list
before the first entry whose identity key equals the checkpoint's
`CurFileINode` — when no entry matches, `takeWhile` keeps the whole sorted
list. -/
theorem c5_ignore_already_deal (m : Metadata) (source : List FileInfo) :
    ignoreAlreadDeal m source =
      (sortByModDesc source).takeWhile
        (fun e => GetOSStateStr e != m.CurFileINode) ∧
    List.Sorted modDesc (sortByModDesc source) ∧
    List.Perm (sortByModDesc source) source :=
  ⟨take_findCurPos m.CurFileINode (sortByModDesc source),
   List.sorted_insertionSort modDesc source,
   List.perm_insertionSort modDesc source⟩

set_option maxRecDepth 8192

/-- C6 (amended): draining the ten-line file `test_line_log=1` …
`test_line_log=10` (each line `'\n'`-terminated) with the `ReadSlice`
reader from offset 0 yields exactly those ten records in order with
delimiters stripped, the call after the tenth yields plain EOF under a
benign filesystem, and the final shared offset equals 161 — the byte length
of the whole file, delimiters included (not 155). -/
theorem c6_ten_lines_drain :
    tenLinesRun.1 = tenLinesRecords ∧
    tenLinesRun.2.1.readOffset = 161 ∧
    tenLinesRun.2.2 = some NextErr.eof ∧
    (tenLinesLog.toList.length : Int) = 161 :=
  ⟨by decide, by decide, by decide, by decide⟩

/-- C6 (counterexample): the drain of the ten-line file leaves the shared
offset at a value that is not 155. -/
theorem c6_offset_counterexample :
    tenLinesRun.2.1.readOffset = 161 ∧
    (tenLinesRun.2.1.readOffset == (155 : Int)) = false :=
  ⟨by decide, by decide⟩

/-- C10: with an empty checkpoint `initReaderFromMetadata` stores nothing in
the current-reader cell, and on such a state both `harvester.Close` and the
load-and-assert step of `innerRun` hit the unchecked type assertion
`curReader.Load().(Reader)` on a nil interface value: they panic instead of
returning (normally or with an error). -/
theorem c10_nil_reader_type_assertion (openRes : Option GoErr)
    (st : HarvState) (h1 : st.curReader = none) (h2 : st.meta.CurFile = "") :
    initReaderFromMetadata openRes st = .ok st ∧
    harvesterClose st = .error .nilInterfaceAssertion ∧
    innerRunLoadReader st = .error .nilInterfaceAssertion := by
  refine ⟨?_, ?_, ?_⟩
  · simp [initReaderFromMetadata, h2]
  · simp [harvesterClose, typeAssertReader, h1]
  · simp [innerRunLoadReader, typeAssertReader, h1]

/-- C10 (witness): the nil-assertion panic at the concrete never-adopted
state. -/
theorem c10_nil_reader_type_assertion_witness :
    initReaderFromMetadata none emptyBootState = .ok emptyBootState ∧
    harvesterClose emptyBootState = .error .nilInterfaceAssertion ∧
    innerRunLoadReader emptyBootState = .error .nilInterfaceAssertion :=
  c10_nil_reader_type_assertion none emptyBootState rfl rfl

end Filebeat
